import Mathlib

set_option autoImplicit false

/-!
Shallow embedding of the categorization-and-anonymization core of
ezbook-convert (Go): the categorizer (`internal/categorizer/categorizer.go`),
the anonymizer (`internal/anonymizer/anonymizer.go`), the YAML config store
(`internal/config/config.go`) and the config-loading wrapper
(`cmd/convert.go`, `loadConfigOrDefault`).

Strings are modelled as Lean `String` (lists of chars); the Go string
primitives used by the core (`strings.ToLower`, `strings.TrimSpace`,
`strings.Contains`, `strings.EqualFold`) are modelled character-by-character
below, with ASCII case mapping (the source only ever lower-cases inputs whose
decisive characters are ASCII, and already-lowercase Hungarian letters are
fixed points of both mappings).

The Go `map[string]*Category` is modelled as an association list
`List (String × Category)`: one list value fixes one enumeration order of the
map; two enumerations of the same map are permutations of one another
(`List.Perm`), which is how the randomized iteration order of Go maps is
reasoned about here.
-/

namespace EzbookConvert

/-- Character test for the `[A-Z]` class of the Go regexp (ASCII uppercase). -/
def isUpperAZ (c : Char) : Bool := decide (65 ≤ c.toNat ∧ c.toNat ≤ 90)

/-- Character test for the `\d` class of the Go regexp (ASCII digit). -/
def isDigit09 (c : Char) : Bool := decide (48 ≤ c.toNat ∧ c.toNat ≤ 57)

/-- Whitespace test modelling `unicode.IsSpace` on the ASCII range
(space, tab, newline, carriage return, vertical tab, form feed). -/
def isSpaceGo (c : Char) : Bool :=
  decide (c.toNat = 32 ∨ c.toNat = 9 ∨ c.toNat = 10 ∨ c.toNat = 13 ∨
          c.toNat = 11 ∨ c.toNat = 12)

/-- ASCII lower-casing of one character, modelling `unicode.ToLower` on the
characters the source actually needs mapped. -/
def lowerChar (c : Char) : Char :=
  if isUpperAZ c then Char.ofNat (c.toNat + 32) else c

/-- Model of Go `strings.ToLower`. -/
def strToLower (s : String) : String := ⟨s.data.map lowerChar⟩

/-- Model of Go `strings.TrimSpace`: drop whitespace from both ends. -/
def trimSpace (s : String) : String :=
  ⟨((s.data.dropWhile isSpaceGo).reverse.dropWhile isSpaceGo).reverse⟩

/-- Does the second list start with the first? -/
def isStartOf : List Char → List Char → Bool
  | [], _ => true
  | _ :: _, [] => false
  | a :: as, b :: bs => a == b && isStartOf as bs

/-- Does the first list occur contiguously inside the second? -/
def occursIn (needle : List Char) : List Char → Bool
  | [] => isStartOf needle []
  | b :: bs => isStartOf needle (b :: bs) || occursIn needle bs

/-- Model of Go `strings.Contains s sub`. -/
def containsStr (s sub : String) : Bool := occursIn sub.data s.data

/-- Model of Go `strings.EqualFold` (case-insensitive equality), via the
ASCII case mapping. -/
def strEqualFold (s t : String) : Bool := strToLower s == strToLower t

/-! Data model of `internal/config/config.go`. -/

/-- A transaction category with matching rules (`config.Category`). -/
structure Category where
  subCategory : String
  keywords : List String
  exactMatches : List String
deriving DecidableEq, Repr

/-- The application configuration (`config.Config`). `categories` is one
enumeration order of the Go `map[string]*Category`. -/
structure Config where
  knownPartners : List String
  categories : List (String × Category)
deriving DecidableEq, Repr

/-- Membership test of `config.IsKnownPartner`: linear scan with `==`. -/
def IsKnownPartner (cfg : Config) (partner : String) : Bool :=
  cfg.knownPartners.contains partner

/-! Categorizer (`internal/categorizer/categorizer.go`). -/

/-- Does this category entry exact-match the (unlowered) partner name?
Inner loop of priority 1 of `Categorizer.Categorize`. -/
def exactHit (partnerName : String) (e : String × Category) : Bool :=
  e.2.exactMatches.contains partnerName

/-- Does this category entry keyword-match the lowered partner name?
Inner loop of priority 2 of `Categorizer.Categorize`. -/
def kwHit (partnerLower : String) (e : String × Category) : Bool :=
  e.2.keywords.any fun kw => containsStr partnerLower (strToLower kw)

/-- First category entry satisfying `hit`, as (name, subcategory): the shape
of the two range-and-return loops of `Categorizer.Categorize`. -/
def findFirst (hit : String × Category → Bool) :
    List (String × Category) → Option (String × String)
  | [] => none
  | e :: rest => if hit e then some (e.1, e.2.subCategory) else findFirst hit rest

/-- Priority 3 of `Categorizer.Categorize`: the transaction-type fallback
chain over the lowered transaction type. -/
def typeFallback (typeLower : String) : String × String :=
  if containsStr typeLower "jóváírás" || containsStr typeLower "fizetés" then
    ("Miscellaneous", "Other Income")
  else if containsStr typeLower "hitel törlesztés" then
    ("Finance & Insurance", "Interest Expense")
  else if containsStr typeLower "készpénz" then
    ("General Transfer", "Deposits & Withdrawals")
  else if containsStr typeLower "díj" || containsStr typeLower "költség" then
    ("Finance & Insurance", "Service Charge")
  else
    ("Miscellaneous", "")

/-- `Categorizer.Categorize`: exact match, then keyword match, then
transaction-type fallback, then the `("Miscellaneous", "")` default. -/
def Categorize (cfg : Config) (partnerName transactionType : String) :
    String × String :=
  match findFirst (exactHit partnerName) cfg.categories with
  | some r => r
  | none =>
    match findFirst (kwHit (strToLower partnerName)) cfg.categories with
    | some r => r
    | none => typeFallback (strToLower transactionType)

/-- Loop body of `Categorizer.GetUncategorizedPartners`, with the `seen` map
modelled as the list of partners already marked seen. -/
def getUncatAux (cfg : Config) : List String → List String → List String
  | [], _ => []
  | p :: rest, seen =>
    if trimSpace p = "" then getUncatAux cfg rest seen
    else if seen.contains (trimSpace p) then getUncatAux cfg rest seen
    else if IsKnownPartner cfg (trimSpace p) then
      getUncatAux cfg rest (trimSpace p :: seen)
    else
      trimSpace p :: getUncatAux cfg rest (trimSpace p :: seen)

/-- `Categorizer.GetUncategorizedPartners`. -/
def GetUncategorizedPartners (cfg : Config) (partners : List String) :
    List String :=
  getUncatAux cfg partners []

/-- First-seen-order deduplication, keeping the first occurrence of each
string. Used only to state the Novelty Detector contract in the spec's own
words. -/
def dedupAux : List String → List String → List String
  | [], _ => []
  | x :: xs, seen =>
    if seen.contains x then dedupAux xs seen else x :: dedupAux xs (x :: seen)

/-- The Novelty Detector contract stated from the spec's words: the trimmed
names, blanks skipped, known partners removed, deduplicated in first-seen
order. To be compared with `GetUncategorizedPartners`. -/
def findUnknownSpec (cfg : Config) (names : List String) : List String :=
  dedupAux
    ((names.map trimSpace).filter fun t =>
      !(t == "") && !(IsKnownPartner cfg t)) []

/-! Anonymizer (`internal/anonymizer/anonymizer.go`). -/

/-- `anonymizer.AnonymizationResult`. -/
structure AnonymizationResult where
  original : String
  anonymized : String
  isPersonal : Bool
  detectionType : String
deriving DecidableEq, Repr

/-- `anonymizer.Config` (the owner name to anonymize); the Go `*Config`
pointer is modelled as `Option AnonConfig`. -/
structure AnonConfig where
  ownerName : String
deriving DecidableEq, Repr

/-- The Go regexp `[A-Z]{2}[0-9]{10,34}` anchored at both ends
(`accountNumberPattern.MatchString`). -/
def isAccountNumber (s : String) : Bool :=
  match s.data with
  | a :: b :: rest =>
    isUpperAZ a && isUpperAZ b && rest.all isDigit09 &&
      decide (10 ≤ rest.length) && decide (rest.length ≤ 34)
  | _ => false

/-- Owner-name check of `anonymizer.Anonymize`: non-nil config, non-empty
owner name, case-insensitive equality with the trimmed merchant name. -/
def ownerHit (trimmed : String) : Option AnonConfig → Bool
  | some c => !(c.ownerName == "") && strEqualFold trimmed c.ownerName
  | none => false

/-- Transfer heuristic of `anonymizer.Anonymize` over the lowered
transaction type. -/
def transferHit (typeLower : String) : Bool :=
  containsStr typeLower "átutalás" || containsStr typeLower "átvezetés" ||
    containsStr typeLower "jóváírás"

/-- `anonymizer.Anonymize`: empty check, account-number pattern, owner name,
transfer heuristic, otherwise pass through unchanged. -/
def Anonymize (merchantName transactionType : String)
    (cfg : Option AnonConfig) : AnonymizationResult :=
  if trimSpace merchantName = "" then
    { original := merchantName, anonymized := merchantName,
      isPersonal := false, detectionType := "none" }
  else if isAccountNumber (trimSpace merchantName) then
    { original := merchantName, anonymized := "[ACCOUNT_NUMBER]",
      isPersonal := true, detectionType := "account_number" }
  else if ownerHit (trimSpace merchantName) cfg then
    { original := merchantName, anonymized := "[OWNER_NAME]",
      isPersonal := true, detectionType := "owner_name" }
  else if transferHit (strToLower transactionType) then
    { original := merchantName, anonymized := "[TRANSFER_PARTNER]",
      isPersonal := true, detectionType := "transfer_partner" }
  else
    { original := merchantName, anonymized := merchantName,
      isPersonal := false, detectionType := "none" }

/-- `anonymizer.AnonymizeMerchantList`: one result per merchant, index `i`
paired with `transactionTypes[i]` when in range and `""` otherwise. -/
def AnonymizeMerchantList (merchants transactionTypes : List String)
    (cfg : Option AnonConfig) : List AnonymizationResult :=
  (List.range merchants.length).map fun i =>
    Anonymize (merchants.getD i "")
      (if i < transactionTypes.length then transactionTypes.getD i "" else "")
      cfg

/-! Config store (`internal/config/config.go` `LoadConfig` and
`cmd/convert.go` `loadConfigOrDefault`). The YAML layer is abstracted: a
configuration source is either absent (`os.ReadFile` fails with not-exist),
present but not parseable (`yaml.Unmarshal` fails), or present and parsed
into the raw shape below. `yaml.Unmarshal` leaves an absent `subcategory`
key at the Go zero value, modelled by `Option String` resolved with
`Option.getD ""`. -/

/-- Raw parsed YAML shape of one category: `subcategory` is optional in the
document. -/
structure RawCategory where
  subcategory : Option String
  keywords : List String
  exactMatches : List String
deriving DecidableEq, Repr

/-- Raw parsed YAML shape of the whole document; `categories` may be absent
(a nil Go map, replaced by an empty map in `LoadConfig`). -/
structure RawConfig where
  knownPartners : List String
  categories : Option (List (String × RawCategory))
deriving DecidableEq, Repr

/-- The state of the configuration source file. -/
inductive FileContent where
  | absent
  | malformed
  | parsed (raw : RawConfig)
deriving DecidableEq, Repr

/-- Errors of `config.LoadConfig`: the read error for a missing file, and
the YAML parse error. -/
inductive LoadError where
  | notExist
  | parseError
deriving DecidableEq, Repr

/-- How `yaml.Unmarshal` fills one `config.Category`: a missing
`subcategory` key yields the zero value `""`. -/
def toCategory (rc : RawCategory) : Category :=
  { subCategory := rc.subcategory.getD "",
    keywords := rc.keywords,
    exactMatches := rc.exactMatches }

/-- `config.LoadConfig`: read the file, unmarshal, replace a nil categories
map by an empty one. No further validation is performed. -/
def LoadConfig : FileContent → Except LoadError Config
  | .absent => .error .notExist
  | .malformed => .error .parseError
  | .parsed raw =>
    .ok { knownPartners := raw.knownPartners,
          categories := (raw.categories.getD []).map fun p => (p.1, toCategory p.2) }

/-- The empty configuration substituted by `loadConfigOrDefault`. -/
def emptyConfig : Config := { knownPartners := [], categories := [] }

/-- `cmd/convert.go` `loadConfigOrDefault`: empty path or missing file give
the empty configuration; a parse error is surfaced. -/
def loadConfigOrDefault (configPath : String) (source : FileContent) :
    Except LoadError Config :=
  if configPath = "" then .ok emptyConfig
  else
    match LoadConfig source with
    | .error .notExist => .ok emptyConfig
    | .error e => .error e
    | .ok cfg => .ok cfg

/-! Concrete fixtures used by counterexamples and witnesses. -/

/-- The spec's example rule set: one category "Food & Drink" with
subcategory "Food" and keyword "aldi". -/
def foodDrinkConfig : Config :=
  { knownPartners := [],
    categories := [("Food & Drink",
      { subCategory := "Food", keywords := ["aldi"], exactMatches := [] })] }

/-- A parsed configuration source whose single category lacks the
`subcategory` key. -/
def badRaw : RawConfig :=
  { knownPartners := [],
    categories := some [("Food & Drink",
      { subcategory := none, keywords := ["aldi"], exactMatches := [] })] }

/-- A rule whose keyword "x" ties with `keywordCatB` on partner "x". -/
def keywordCatA : Category :=
  { subCategory := "a", keywords := ["x"], exactMatches := [] }

/-- A rule whose keyword "x" ties with `keywordCatA` on partner "x". -/
def keywordCatB : Category :=
  { subCategory := "b", keywords := ["x"], exactMatches := [] }

/-- One enumeration order of a two-rule map in which both rules
keyword-match "x". -/
def tieCfg1 : Config :=
  { knownPartners := [], categories := [("A", keywordCatA), ("B", keywordCatB)] }

/-- The other enumeration order of the same two-rule map as `tieCfg1`. -/
def tieCfg2 : Config :=
  { knownPartners := [], categories := [("B", keywordCatB), ("A", keywordCatA)] }

/-- A rule matching neither "x" nor "X" by exact match or keyword. -/
def soloCatC : Category :=
  { subCategory := "c", keywords := ["zzz"], exactMatches := [] }

/-- One enumeration order of a tie-free two-rule map: only `keywordCatA`
matches partner "x". -/
def tieFreeCfg1 : Config :=
  { knownPartners := [], categories := [("A", keywordCatA), ("C", soloCatC)] }

/-- The other enumeration order of the same tie-free map as `tieFreeCfg1`. -/
def tieFreeCfg2 : Config :=
  { knownPartners := [], categories := [("C", soloCatC), ("A", keywordCatA)] }

/-- A rule set in which "ALDI 241.SZ." is the exact match of exactly one
rule while a second rule shares the keyword "aldi". -/
def aldiCfg : Config :=
  { knownPartners := [],
    categories := [("Food & Drink",
      { subCategory := "Food", keywords := ["aldi"], exactMatches := ["ALDI 241.SZ."] }),
    ("Other Keywords",
      { subCategory := "x", keywords := ["aldi"], exactMatches := [] })] }

/-! General lemmas about the embedded operations. -/

/-- A first-match scan returns nothing exactly when no entry matches. -/
theorem findFirst_eq_none_iff (hit : String × Category → Bool)
    (L : List (String × Category)) :
    findFirst hit L = none ↔ ∀ e ∈ L, hit e = false := by
  induction L with
  | nil => simp [findFirst]
  | cons e rest ih =>
    by_cases h : hit e = true
    · simp [findFirst, h]
    · simp only [Bool.not_eq_true] at h
      simp [findFirst, h, ih]

/-- When exactly one entry matches, a first-match scan returns it, whatever
the enumeration order of the list. -/
theorem findFirst_unique (hit : String × Category → Bool)
    (L : List (String × Category)) (e₀ : String × Category)
    (hmem : e₀ ∈ L) (hhit : hit e₀ = true)
    (huniq : ∀ e ∈ L, hit e = true → e = e₀) :
    findFirst hit L = some (e₀.1, e₀.2.subCategory) := by
  induction L with
  | nil => cases hmem
  | cons e rest ih =>
    by_cases h : hit e = true
    · have he : e = e₀ := huniq e (List.mem_cons_self e rest) h
      subst he
      simp [findFirst, h]
    · simp only [Bool.not_eq_true] at h
      have hmem' : e₀ ∈ rest := by
        rcases List.mem_cons.mp hmem with heq | h'
        · subst heq
          rw [h] at hhit
          cases hhit
        · exact h'
      simp only [findFirst, h, Bool.false_eq_true, if_false]
      exact ih hmem' fun e' he' hh => huniq e' (List.mem_cons_of_mem _ he') hh

/-- Dropping leading whitespace does nothing to a list without whitespace. -/
theorem dropWhile_eq_self_of_no_space (l : List Char)
    (h : ∀ c ∈ l, isSpaceGo c = false) :
    l.dropWhile isSpaceGo = l := by
  cases l with
  | nil => rfl
  | cons a as => simp [List.dropWhile_cons, h a (List.mem_cons_self a as)]

/-- Trimming does nothing to a string without whitespace. -/
theorem trimSpace_eq_self (s : String)
    (h : ∀ c ∈ s.data, isSpaceGo c = false) :
    trimSpace s = s := by
  unfold trimSpace
  rw [dropWhile_eq_self_of_no_space s.data h,
    dropWhile_eq_self_of_no_space s.data.reverse
      (fun c hc => h c (List.mem_reverse.mp hc)),
    List.reverse_reverse]

/-- An ASCII uppercase letter is not whitespace. -/
theorem upper_not_space (c : Char) (h : isUpperAZ c = true) :
    isSpaceGo c = false := by
  simp only [isUpperAZ, decide_eq_true_eq] at h
  simp only [isSpaceGo, decide_eq_false_iff_not]
  omega

/-- An ASCII digit is not whitespace. -/
theorem digit_not_space (c : Char) (h : isDigit09 c = true) :
    isSpaceGo c = false := by
  simp only [isDigit09, decide_eq_true_eq] at h
  simp only [isSpaceGo, decide_eq_false_iff_not]
  omega

/-- A string matching the account-number pattern contains no whitespace. -/
theorem accountNumber_no_space (s : String) (h : isAccountNumber s = true) :
    ∀ c ∈ s.data, isSpaceGo c = false := by
  unfold isAccountNumber at h
  rcases hs : s.data with _ | ⟨a, _ | ⟨b, rest⟩⟩ <;> rw [hs] at h
  · cases h
  · cases h
  · simp only [Bool.and_eq_true] at h
    obtain ⟨⟨⟨⟨ha, hb⟩, hrest⟩, _⟩, _⟩ := h
    intro c hc
    simp only [List.mem_cons] at hc
    rcases hc with rfl | rfl | hc
    · exact upper_not_space c ha
    · exact upper_not_space c hb
    · exact digit_not_space c (List.all_eq_true.mp hrest c hc)

/-- Lower-casing preserves emptiness. -/
theorem strToLower_eq_empty_iff (s : String) : strToLower s = "" ↔ s = "" := by
  constructor
  · intro h
    have h2 : s.data.map lowerChar = [] := congrArg String.data h
    have h3 : s.data = [] := List.map_eq_nil_iff.mp h2
    cases s with
    | mk d =>
      show String.mk d = String.mk []
      exact congrArg String.mk h3
  · intro h
    subst h
    rfl

/-- A string case-insensitively equal to the empty string is empty. -/
theorem strEqualFold_empty_right (s t : String) (h : strEqualFold s t = true)
    (hs : s = "") : t = "" := by
  subst hs
  unfold strEqualFold at h
  have h2 : strToLower "" = strToLower t := eq_of_beq h
  exact (strToLower_eq_empty_iff t).mp h2.symm

/-- The uncategorized-partner loop equals trim-filter-dedup, for any pair of
seen sets that agree on all unknown partners. -/
theorem getUncatAux_eq_dedupAux (cfg : Config) (ps : List String)
    (S1 S2 : List String)
    (hinv : ∀ t, IsKnownPartner cfg t = false → S1.contains t = S2.contains t) :
    getUncatAux cfg ps S1 =
      dedupAux ((ps.map trimSpace).filter fun t =>
        !(t == "") && !(IsKnownPartner cfg t)) S2 := by
  induction ps generalizing S1 S2 with
  | nil => rfl
  | cons p rest ih =>
    by_cases hblank : trimSpace p = ""
    · simp only [getUncatAux, hblank, eq_self_iff_true, if_true, List.map_cons,
        List.filter_cons, beq_self_eq_true, Bool.not_true, Bool.false_and,
        Bool.false_eq_true, if_false]
      exact ih S1 S2 hinv
    · have hbne : (trimSpace p == "") = false := beq_eq_false_iff_ne.mpr hblank
      by_cases hknown : IsKnownPartner cfg (trimSpace p) = true
      · by_cases hseen : S1.contains (trimSpace p) = true
        · simp only [getUncatAux, hblank, if_false, hseen, if_true, List.map_cons,
            List.filter_cons, hbne, Bool.not_false, hknown, Bool.not_true,
            Bool.and_false, if_false]
          exact ih S1 S2 hinv
        · simp only [Bool.not_eq_true] at hseen
          simp only [getUncatAux, hblank, if_false, hseen, Bool.false_eq_true,
            if_false, hknown, if_true, List.map_cons, List.filter_cons, hbne,
            Bool.not_false, Bool.not_true, Bool.and_false, if_false]
          refine ih (trimSpace p :: S1) S2 fun t ht => ?_
          have htp : t ≠ trimSpace p := by
            intro he
            rw [he, hknown] at ht
            cases ht
          rw [List.contains_cons, beq_eq_false_iff_ne.mpr htp, Bool.false_or]
          exact hinv t ht
      · simp only [Bool.not_eq_true] at hknown
        by_cases hseen : S1.contains (trimSpace p) = true
        · have hseen2 : S2.contains (trimSpace p) = true := by
            rw [← hinv (trimSpace p) hknown]
            exact hseen
          simp only [getUncatAux, hblank, if_false, hseen, if_true, List.map_cons,
            List.filter_cons, hbne, Bool.not_false, hknown, Bool.true_and,
            Bool.not_false, if_true, dedupAux, hseen2]
          exact ih S1 S2 hinv
        · simp only [Bool.not_eq_true] at hseen
          have hseen2 : S2.contains (trimSpace p) = false := by
            rw [← hinv (trimSpace p) hknown]
            exact hseen
          simp only [getUncatAux, hblank, if_false, hseen, Bool.false_eq_true,
            if_false, hknown, List.map_cons, List.filter_cons, hbne,
            Bool.not_false, Bool.true_and, if_true, dedupAux, hseen2]
          refine congrArg (trimSpace p :: ·) ?_
          refine ih (trimSpace p :: S1) (trimSpace p :: S2) fun t ht => ?_
          rw [List.contains_cons, List.contains_cons, hinv t ht]

/-! Claim theorems. -/

/-- C1 (counterexample): loading a present, well-formed source whose single
category lacks the `subcategory` key does NOT fail; it returns a rule set
whose rule has the empty subcategory, so the non-empty-subcategory invariant
fails for loaded rule sets. -/
theorem C1_load_missing_subcategory_counterexample :
    badRaw.categories = some [("Food & Drink",
      { subcategory := none, keywords := ["aldi"], exactMatches := [] })] ∧
    LoadConfig (FileContent.parsed badRaw) =
      Except.ok { knownPartners := [],
                  categories := [("Food & Drink",
                    { subCategory := "", keywords := ["aldi"], exactMatches := [] })] } :=
  ⟨rfl, rfl⟩

/-- C1 (amended): for every parsed source containing a category lacking a
subcategory, load still succeeds, and the returned rule set contains that
category with the empty string as its subcategory; load fails only on
absent or unparseable sources. -/
theorem C1_load_accepts_missing_subcategory (raw : RawConfig) (n : String)
    (rc : RawCategory) (hmem : (n, rc) ∈ raw.categories.getD [])
    (hnone : rc.subcategory = none) :
    ∃ cfg, LoadConfig (FileContent.parsed raw) = Except.ok cfg ∧
      (n, { subCategory := "", keywords := rc.keywords,
            exactMatches := rc.exactMatches }) ∈ cfg.categories := by
  refine ⟨_, rfl, ?_⟩
  have h := List.mem_map_of_mem (fun p => (p.1, toCategory p.2)) hmem
  simpa [toCategory, hnone] using h

/-- C1 (witness): the amended statement evaluated on the concrete bad
source. -/
theorem C1_witness :
    ∃ cfg, LoadConfig (FileContent.parsed badRaw) = Except.ok cfg ∧
      ("Food & Drink", { subCategory := "", keywords := ["aldi"],
                         exactMatches := [] }) ∈ cfg.categories :=
  C1_load_accepts_missing_subcategory badRaw "Food & Drink"
    { subcategory := none, keywords := ["aldi"], exactMatches := [] }
    (by simp [badRaw]) rfl

/-- C2 (counterexample): two enumeration orders of the same two-rule map
(the same rule set, same known partners) give different categorizations of
the same inputs when both rules keyword-match, so the Go map iteration makes
ties not deterministic. -/
theorem C2_map_order_counterexample :
    List.Perm tieCfg1.categories tieCfg2.categories ∧
    tieCfg1.knownPartners = tieCfg2.knownPartners ∧
    Categorize tieCfg1 "x" "" = ("A", "a") ∧
    Categorize tieCfg2 "x" "" = ("B", "b") :=
  ⟨by decide, rfl, by decide, by decide⟩

/-- C2 (amended): categorize is deterministic per fixed enumeration order,
and two enumerations of the same rule map agree whenever at most one rule
matches at the exact tier and, failing that tier, at most one rule matches
at the keyword tier. -/
theorem C2_deterministic_without_ties (cfg1 cfg2 : Config) (p t : String)
    (hperm : List.Perm cfg1.categories cfg2.categories)
    (hexuniq : ∀ e1 ∈ cfg1.categories, ∀ e2 ∈ cfg1.categories,
      exactHit p e1 = true → exactHit p e2 = true → e1 = e2)
    (hkwuniq : (∀ e ∈ cfg1.categories, exactHit p e = false) →
      ∀ e1 ∈ cfg1.categories, ∀ e2 ∈ cfg1.categories,
        kwHit (strToLower p) e1 = true → kwHit (strToLower p) e2 = true → e1 = e2) :
    Categorize cfg1 p t = Categorize cfg2 p t := by
  by_cases hex : ∃ e ∈ cfg1.categories, exactHit p e = true
  · obtain ⟨e₀, hmem, hhit⟩ := hex
    have h1 : findFirst (exactHit p) cfg1.categories = some (e₀.1, e₀.2.subCategory) :=
      findFirst_unique _ _ e₀ hmem hhit fun e he hh => hexuniq e he e₀ hmem hh hhit
    have h2 : findFirst (exactHit p) cfg2.categories = some (e₀.1, e₀.2.subCategory) :=
      findFirst_unique _ _ e₀ (hperm.mem_iff.mp hmem) hhit fun e he hh =>
        hexuniq e (hperm.mem_iff.mpr he) e₀ hmem hh hhit
    simp [Categorize, h1, h2]
  · push_neg at hex
    simp only [Bool.not_eq_true] at hex
    have h1 : findFirst (exactHit p) cfg1.categories = none :=
      (findFirst_eq_none_iff _ _).mpr hex
    have h2 : findFirst (exactHit p) cfg2.categories = none :=
      (findFirst_eq_none_iff _ _).mpr fun e he => hex e (hperm.mem_iff.mpr he)
    by_cases hkw : ∃ e ∈ cfg1.categories, kwHit (strToLower p) e = true
    · obtain ⟨e₀, hmem, hhit⟩ := hkw
      have huniq := hkwuniq hex
      have h3 : findFirst (kwHit (strToLower p)) cfg1.categories =
          some (e₀.1, e₀.2.subCategory) :=
        findFirst_unique _ _ e₀ hmem hhit fun e he hh => huniq e he e₀ hmem hh hhit
      have h4 : findFirst (kwHit (strToLower p)) cfg2.categories =
          some (e₀.1, e₀.2.subCategory) :=
        findFirst_unique _ _ e₀ (hperm.mem_iff.mp hmem) hhit fun e he hh =>
          huniq e (hperm.mem_iff.mpr he) e₀ hmem hh hhit
      simp [Categorize, h1, h2, h3, h4]
    · push_neg at hkw
      simp only [Bool.not_eq_true] at hkw
      have h3 : findFirst (kwHit (strToLower p)) cfg1.categories = none :=
        (findFirst_eq_none_iff _ _).mpr hkw
      have h4 : findFirst (kwHit (strToLower p)) cfg2.categories = none :=
        (findFirst_eq_none_iff _ _).mpr fun e he => hkw e (hperm.mem_iff.mpr he)
      simp [Categorize, h1, h2, h3, h4]

/-- C2 (witness): the amended statement on a tie-free map in its two
enumeration orders. -/
theorem C2_witness :
    Categorize tieFreeCfg1 "x" "" = Categorize tieFreeCfg2 "x" "" :=
  C2_deterministic_without_ties tieFreeCfg1 tieFreeCfg2 "x" ""
    (by decide) (by decide) (by decide)

/-- C3: for every config path, an absent configuration source loads as the
empty rule set, with zero categories and zero known counterparties, and no
error is reported. -/
theorem C3_absent_source_gives_empty_ruleset (configPath : String) :
    loadConfigOrDefault configPath FileContent.absent = Except.ok emptyConfig ∧
    emptyConfig.categories.length = 0 ∧ emptyConfig.knownPartners.length = 0 := by
  refine ⟨?_, rfl, rfl⟩
  by_cases h : configPath = "" <;> simp [loadConfigOrDefault, LoadConfig, h]

/-- C4: when the partner name is an exact-match entry of exactly one rule,
categorize returns that rule's category and subcategory, for every
transaction type and regardless of other rules' keywords. -/
theorem C4_unique_exact_match_wins (cfg : Config) (partnerName : String)
    (c : String) (cat : Category)
    (hmem : (c, cat) ∈ cfg.categories)
    (hhit : cat.exactMatches.contains partnerName = true)
    (huniq : ∀ e ∈ cfg.categories, exactHit partnerName e = true → e = (c, cat))
    (transactionType : String) :
    Categorize cfg partnerName transactionType = (c, cat.subCategory) := by
  have h1 : findFirst (exactHit partnerName) cfg.categories = some (c, cat.subCategory) :=
    findFirst_unique _ _ (c, cat) hmem hhit huniq
  simp [Categorize, h1]

/-- C4 (witness): the exact match beats a competing keyword rule and a
transfer-phrase transaction type. -/
theorem C4_witness :
    Categorize aldiCfg "ALDI 241.SZ." "Forint átutalás jóváírás" = ("Food & Drink", "Food") :=
  C4_unique_exact_match_wins aldiCfg "ALDI 241.SZ." "Food & Drink"
    { subCategory := "Food", keywords := ["aldi"], exactMatches := ["ALDI 241.SZ."] }
    (by decide) (by decide) (by decide) "Forint átutalás jóváírás"

/-- C5 (counterexample): a name with surrounding whitespace that does not
match the account-number pattern and equals the non-empty owner name
case-insensitively is nevertheless classified as an account number, because
the code applies both checks to the trimmed name. -/
theorem C5_untrimmed_owner_counterexample :
    isAccountNumber " AB0123456789 " = false ∧
    strEqualFold " AB0123456789 " " AB0123456789 " = true ∧
    (" AB0123456789 " : String) ≠ "" ∧
    Anonymize " AB0123456789 " "Forint átutalás" (some { ownerName := " AB0123456789 " }) =
      { original := " AB0123456789 ", anonymized := "[ACCOUNT_NUMBER]",
        isPersonal := true, detectionType := "account_number" } :=
  ⟨by decide, by decide, by decide, by decide⟩

/-- C5 (amended): when the whitespace-trimmed counterparty name does not
match the account-number pattern and equals the supplied non-empty owner
name case-insensitively, classify returns the owner-name detection with the
fixed placeholder, whatever the transaction type, even one containing a
transfer phrase. -/
theorem C5_owner_name_priority (name t owner : String)
    (howner : owner ≠ "")
    (hacct : isAccountNumber (trimSpace name) = false)
    (hfold : strEqualFold (trimSpace name) owner = true) :
    Anonymize name t (some { ownerName := owner }) =
      { original := name, anonymized := "[OWNER_NAME]",
        isPersonal := true, detectionType := "owner_name" } := by
  have htrim : trimSpace name ≠ "" := by
    intro h
    exact howner (strEqualFold_empty_right (trimSpace name) owner hfold h)
  have hown : ownerHit (trimSpace name) (some { ownerName := owner }) = true := by
    simp only [ownerHit, Bool.and_eq_true, Bool.not_eq_true']
    exact ⟨beq_eq_false_iff_ne.mpr howner, hfold⟩
  simp [Anonymize, htrim, hacct, hown]

/-- C5 (witness): the spec's own example, owner "Vigh Daniel" and input
"VIGH DANIEL", with a transfer phrase in the transaction type. -/
theorem C5_witness :
    Anonymize "VIGH DANIEL" "Forint átutalás" (some { ownerName := "Vigh Daniel" }) =
      { original := "VIGH DANIEL", anonymized := "[OWNER_NAME]",
        isPersonal := true, detectionType := "owner_name" } :=
  C5_owner_name_priority "VIGH DANIEL" "Forint átutalás" "Vigh Daniel"
    (by decide) (by decide) (by decide)

/-- C6: every counterparty name matching the account-number pattern (two
uppercase letters then 10 to 34 digits, full string) is classified as an
account number with the fixed placeholder, for every transaction type and
every owner configuration. -/
theorem C6_account_number_always_redacted (name : String)
    (h : isAccountNumber name = true) (t : String) (cfg : Option AnonConfig) :
    Anonymize name t cfg =
      { original := name, anonymized := "[ACCOUNT_NUMBER]",
        isPersonal := true, detectionType := "account_number" } := by
  have htrim : trimSpace name = name :=
    trimSpace_eq_self name (accountNumber_no_space name h)
  have hne : name ≠ "" := by
    intro he
    rw [he] at h
    exact absurd h (by decide)
  simp [Anonymize, htrim, hne, h]

/-- C6 (witness): the spec's example account number, with an owner name
equal to the same string to stress independence from the owner
configuration. -/
theorem C6_witness :
    Anonymize "HU93116000060000000012345676" "Vásárlás"
        (some { ownerName := "HU93116000060000000012345676" }) =
      { original := "HU93116000060000000012345676", anonymized := "[ACCOUNT_NUMBER]",
        isPersonal := true, detectionType := "account_number" } :=
  C6_account_number_always_redacted "HU93116000060000000012345676" (by decide)
    "Vásárlás" (some { ownerName := "HU93116000060000000012345676" })

/-- C7 (counterexample): a transaction type containing the fee phrase "díj"
but also the earlier-checked phrase "fizetés" is categorized as Other
Income, not Service Charge, so the claim's universal statement over all
fee-phrase-containing labels fails. -/
theorem C7_fee_phrase_counterexample :
    containsStr (strToLower "fizetési díj") "díj" = true ∧
    Categorize foodDrinkConfig "Unknown Shop" "fizetési díj" = ("Miscellaneous", "Other Income") :=
  ⟨by decide, by decide⟩

/-- C7 (amended): with the Food & Drink rule set and counterparty
"Unknown Shop", every transaction type containing a fee phrase ("díj" or
"költség") and none of the earlier-checked fallback phrases ("jóváírás",
"fizetés", "hitel törlesztés", "készpénz") is categorized as
Finance & Insurance / Service Charge; when an earlier phrase also occurs,
that earlier phrase wins in the fixed check order. -/
theorem C7_fee_phrase_service_charge (t : String)
    (hfee : (containsStr (strToLower t) "díj" || containsStr (strToLower t) "költség") = true)
    (h1 : containsStr (strToLower t) "jóváírás" = false)
    (h2 : containsStr (strToLower t) "fizetés" = false)
    (h3 : containsStr (strToLower t) "hitel törlesztés" = false)
    (h4 : containsStr (strToLower t) "készpénz" = false) :
    Categorize foodDrinkConfig "Unknown Shop" t = ("Finance & Insurance", "Service Charge") := by
  have hex : findFirst (exactHit "Unknown Shop") foodDrinkConfig.categories = none := by decide
  have hkw : findFirst (kwHit (strToLower "Unknown Shop")) foodDrinkConfig.categories = none := by
    decide
  simp [Categorize, hex, hkw, typeFallback, hfee, h1, h2, h3, h4]

/-- C7 (witness): a realistic yearly card-fee transaction type. -/
theorem C7_witness :
    Categorize foodDrinkConfig "Unknown Shop" "Bankkártya éves díj" =
      ("Finance & Insurance", "Service Charge") :=
  C7_fee_phrase_service_charge "Bankkártya éves díj"
    (by decide) (by decide) (by decide) (by decide) (by decide)

/-- C8: for every rule set and input sequence, the uncategorized-partner
scan equals trimming, skipping blanks, removing known partners and
deduplicating in first-seen order; in particular it maps
["A", "B", "A", "", "  C  "] against known partner "B" to ["A", "C"]. The
embedding is a pure function of the rule set, which is never modified. -/
theorem C8_find_unknown_contract :
    (∀ (cfg : Config) (partners : List String),
        GetUncategorizedPartners cfg partners = findUnknownSpec cfg partners) ∧
    GetUncategorizedPartners { knownPartners := ["B"], categories := [] }
        ["A", "B", "A", "", "  C  "] = ["A", "C"] := by
  constructor
  · intro cfg partners
    exact getUncatAux_eq_dedupAux cfg partners [] [] fun t _ => rfl
  · decide

/-- C9: whenever classification reports not-personal, the anonymized value
equals the original input name unchanged and the detection kind is none. -/
theorem C9_not_personal_passthrough (name t : String) (cfg : Option AnonConfig)
    (h : (Anonymize name t cfg).isPersonal = false) :
    (Anonymize name t cfg).anonymized = name ∧
    (Anonymize name t cfg).original = name ∧
    (Anonymize name t cfg).detectionType = "none" := by
  unfold Anonymize at h ⊢
  split_ifs at h ⊢ <;> simp_all

/-- C9 (witness): a plain merchant purchase is passed through unchanged. -/
theorem C9_witness :
    (Anonymize "Tesco" "Vásárlás kártyával" none).anonymized = "Tesco" ∧
    (Anonymize "Tesco" "Vásárlás kártyával" none).original = "Tesco" ∧
    (Anonymize "Tesco" "Vásárlás kártyával" none).detectionType = "none" :=
  C9_not_personal_passthrough "Tesco" "Vásárlás kártyával" none (by decide)

/-- C10: the merchant-list anonymizer returns exactly one result per input
merchant, in input order; index i is paired with the i-th transaction type
when that list is long enough and with the empty type otherwise. -/
theorem C10_anonymize_list_indexwise (merchants transactionTypes : List String)
    (cfg : Option AnonConfig) :
    (AnonymizeMerchantList merchants transactionTypes cfg).length = merchants.length ∧
    ∀ i, i < merchants.length →
      (AnonymizeMerchantList merchants transactionTypes cfg)[i]? =
        some (Anonymize (merchants.getD i "")
          (if i < transactionTypes.length then transactionTypes.getD i "" else "") cfg) := by
  constructor
  · simp [AnonymizeMerchantList]
  · intro i hi
    simp [AnonymizeMerchantList, List.getElem?_map, List.getElem?_range, hi]

/-- C10 (witness): a two-merchant list with a shorter transaction-type
list, evaluated at the padded index. -/
theorem C10_witness :
    (AnonymizeMerchantList ["Tesco", "Kovács Anna"] ["Vásárlás"] none)[1]? =
      some (Anonymize "Kovács Anna" "" none) := by
  have h := (C10_anonymize_list_indexwise ["Tesco", "Kovács Anna"] ["Vásárlás"] none).2 1 (by decide)
  simpa using h

end EzbookConvert
